import Mathlib

/-!
Shallow embedding of the material-takeoff reconciliation engine.

Sources embedded:
* `pythonBridge.validateAreaCalculation` (the validation reconciler),
* `geminiService.analyzePdfWithGemini` lines 177-208 (the orchestrator's
  validation-attachment step),
* `App.analyzePDFs` (the sequential batch loop),
* `App.getConsolidatedSummary` (the consolidation engine) together with the
  canonical-key computation `m.material.toLowerCase().trim()`.

Modelling conventions: JavaScript numbers are modelled as exact rationals
(`ℚ`); optional / possibly-absent JS values as `Option`; JS truthiness of a
numeric option (`!x`) as `qTruthy`.  `toLowerCase` is modelled by Lean's
ASCII `Char.toLower` and `trim` by dropping whitespace characters from both
ends of the character list.  Human-readable message strings that are built
with `toFixed` interpolation are display-only and are not modelled; static
message strings are kept verbatim.
-/

/-- JS truthiness of an optional number: `undefined`, `null` and `0` are
falsy, every other (rational) value is truthy. -/
def qTruthy (x : Option ℚ) : Bool :=
  match x with
  | none => false
  | some v => v != 0

/-- Embeds `PythonAreaResult` from `pythonBridge` (only the fields read by
`validateAreaCalculation`; the optional `is_simple_rectangle` is a `Bool`
because JS `undefined` is falsy in the `if` that reads it). -/
structure PythonAreaResult where
  success : Bool
  is_simple_rectangle : Bool
  total_area_m2 : Option ℚ
deriving DecidableEq

/-- The three recommendation values of the reconciler. -/
inductive Recommendation where
  | use_ai
  | use_python
  | manual_review
deriving DecidableEq

/-- The record returned by `validateAreaCalculation` (its `message` field is
display-only text assembled with `toFixed` and is not modelled). -/
structure ValidationResult where
  isValid : Bool
  pythonArea : ℚ
  difference : ℚ
  differencePercent : ℚ
  recommendation : Recommendation
deriving DecidableEq

/-- Embeds `validateAreaCalculation` from `pythonBridge`. -/
def validateAreaCalculation (aiArea : ℚ) (pythonResult : PythonAreaResult)
    (tolerancePercent : ℚ) : ValidationResult :=
  if !pythonResult.success || !qTruthy pythonResult.total_area_m2 then
    { isValid := true, pythonArea := 0, difference := 0, differencePercent := 0,
      recommendation := .use_ai }
  else
    let pythonArea := pythonResult.total_area_m2.getD 0
    let difference := |aiArea - pythonArea|
    let differencePercent := difference / pythonArea * 100
    if differencePercent ≤ tolerancePercent then
      { isValid := true, pythonArea := pythonArea, difference := difference,
        differencePercent := differencePercent, recommendation := .use_ai }
    else if pythonResult.is_simple_rectangle then
      { isValid := false, pythonArea := pythonArea, difference := difference,
        differencePercent := differencePercent, recommendation := .use_python }
    else if !pythonResult.is_simple_rectangle && differencePercent > 20 then
      { isValid := false, pythonArea := pythonArea, difference := difference,
        differencePercent := differencePercent, recommendation := .use_python }
    else
      { isValid := false, pythonArea := pythonArea, difference := difference,
        differencePercent := differencePercent, recommendation := .manual_review }

/-- Canonical-key normalization: the embedding of
`m.material.toLowerCase().trim()`.  Lean's `Char.toLower` is exactly the
ASCII case fold (codepoints 65-90 map to 97-122); `trimChars` drops
whitespace characters from both ends of the character list, using Mathlib's
`List.rdropWhile` for the right end. -/
def trimChars (l : List Char) : List Char :=
  List.rdropWhile Char.isWhitespace (List.dropWhile Char.isWhitespace l)

/-- The embedding of the canonical-key computation
`name.toLowerCase().trim()` from `getConsolidatedSummary`. -/
def canonicalize (s : String) : String :=
  String.mk (trimChars (s.data.map Char.toLower))

/-- Embeds the `Material` interface of `types.ts`.  The `material` field is
an `Option String`: `none` models both a missing name and a non-string name
(the code only distinguishes `typeof m.material !== 'string'`); a `null`
list entry behaves identically to an entry with a non-string name and is
folded into the same case.  `code`, `area` and `confidence` are optional to
model the `|| 0` / `|| ''` defaulting the code performs. -/
structure Material where
  material : Option String
  code : Option String
  area : Option ℚ
  unit : String
  confidence : Option ℚ
  notes : String
deriving DecidableEq

/-- Embeds the `Summary` interface of `types.ts` (plan quality is unused by
the embedded operations and omitted). -/
structure Summary where
  totalArea : ℚ
  materialCount : Nat
deriving DecidableEq

/-- Embeds the `ValidationInfo` interface of `types.ts`: the record shape
attached to an analysis result by the orchestrator.  Every field except
`pythonUsed` is optional in the source. -/
structure ValidationInfo where
  pythonUsed : Bool
  pythonArea : Option ℚ
  aiArea : Option ℚ
  difference : Option ℚ
  differencePercent : Option ℚ
  recommendation : Option Recommendation
  validationMessage : Option String
deriving DecidableEq

/-- Embeds the `AnalysisResult` interface of `types.ts`; `materials` and
`summary` are optional because the consumers guard them with optional
chaining (`result.materials?.forEach`, `summary?.totalArea`). -/
structure AnalysisResult where
  isRoofRelated : Bool
  documentType : String
  language : String
  scale : String
  materials : Option (List Material)
  summary : Option Summary
  validation : Option ValidationInfo
deriving DecidableEq

/-- Embeds `ResultFile` from `types.ts`: an `AnalysisResult` together with
the source file name (the TS spread `{fileName, ...analysisResults}`). -/
structure ResultFile where
  fileName : String
  isRoofRelated : Bool
  documentType : String
  language : String
  scale : String
  materials : Option (List Material)
  summary : Option Summary
  validation : Option ValidationInfo
deriving DecidableEq

/-- The spread `{ fileName: files[i].name, ...analysisResults }` performed
by `analyzePDFs` when appending a completed record. -/
def mkResultFile (name : String) (a : AnalysisResult) : ResultFile :=
  { fileName := name, isRoofRelated := a.isRoofRelated,
    documentType := a.documentType, language := a.language, scale := a.scale,
    materials := a.materials, summary := a.summary, validation := a.validation }

/-- Embeds lines 177-208 of `geminiService.analyzePdfWithGemini`: after the
interpretation engine returns, if the document is roof related and has a
truthy total area, a `ValidationInfo` record is attached whose message
depends on the outcome of `checkPythonAvailability` (`pythonCheck` models
that call: `Except.error` is the catch branch).  No other field of the
record is set. -/
def attachValidation (a : AnalysisResult) (pythonCheck : Except Unit Bool) :
    AnalysisResult :=
  if a.isRoofRelated && qTruthy (a.summary.map (fun s => s.totalArea)) then
    let v : ValidationInfo :=
      match pythonCheck with
      | .ok true =>
        { pythonUsed := false, pythonArea := none, aiArea := none,
          difference := none, differencePercent := none, recommendation := none,
          validationMessage :=
            some "Python validation available but requires server-side integration" }
      | .ok false =>
        { pythonUsed := false, pythonArea := none, aiArea := none,
          difference := none, differencePercent := none, recommendation := none,
          validationMessage :=
            some "Python validation unavailable - install Python dependencies to enable" }
      | .error _ =>
        { pythonUsed := false, pythonArea := none, aiArea := none,
          difference := none, differencePercent := none, recommendation := none,
          validationMessage :=
            some "Python validation failed - using AI-only result" }
    { a with validation := some v }
  else a

/-- Embeds the body of the `for` loop of `App.analyzePDFs`, recursing on the
number of documents left to process: `interpret i` models the awaited
`analyzePdfWithGemini` call for document index `i` (an `Except` because the
call can throw), a successful record is appended and an error stops the loop
with all previously accumulated records preserved (the `catch` block only
records the message). -/
def runBatchAux (interpret : Nat → Except String AnalysisResult)
    (files : List String) : Nat → Nat → List ResultFile × Option String
  | _, 0 => ([], none)
  | i, n + 1 =>
    match interpret i with
    | .error e => ([], some e)
    | .ok a =>
      let rest := runBatchAux interpret files (i + 1) n
      (mkResultFile (files.getD i "") a :: rest.1, rest.2)

/-- Embeds `App.analyzePDFs`: processes the files strictly sequentially from
index 0 and returns the accumulated result list together with the error
message of the failing document, if any. -/
def analyzePDFs (files : List String)
    (interpret : Nat → Except String AnalysisResult) :
    List ResultFile × Option String :=
  runBatchAux interpret files 0 files.length

/-- Embeds the `ConsolidatedMaterial` interface of `types.ts`. -/
structure ConsolidatedMaterial where
  material : String
  code : String
  area : ℚ
  unit : String
  confidence : ℚ
  sources : List String
deriving DecidableEq

/-- Embeds the `ConsolidatedSummary` interface of `types.ts`. -/
structure ConsolidatedSummary where
  materials : List ConsolidatedMaterial
  totalArea : ℚ
  roofPlanCount : Nat
  totalPlanCount : Nat
deriving DecidableEq

/-- JS `Map.get`/`has` over the insertion-ordered association list that
models `materialMap`. -/
def findAssoc (m : List (String × ConsolidatedMaterial)) (k : String) :
    Option ConsolidatedMaterial :=
  match m with
  | [] => none
  | (k₁, v) :: rest => if k₁ = k then some v else findAssoc rest k

/-- JS `Map.set`: replace in place when the key is present, append at the
end otherwise (JS `Map` preserves insertion order). -/
def updateAssoc (m : List (String × ConsolidatedMaterial)) (k : String)
    (v : ConsolidatedMaterial) : List (String × ConsolidatedMaterial) :=
  match m with
  | [] => [(k, v)]
  | (k₁, v₁) :: rest =>
    if k₁ = k then (k, v) :: rest else (k₁, v₁) :: updateAssoc rest k v

/-- Embeds the body of the inner `forEach` of `getConsolidatedSummary`: skip
entries without a string name, otherwise merge into `materialMap` under the
canonical key. -/
def processMaterial (docName : String)
    (map : List (String × ConsolidatedMaterial)) (m : Material) :
    List (String × ConsolidatedMaterial) :=
  match m.material with
  | none => map
  | some name =>
    let key := canonicalize name
    match findAssoc map key with
    | some existing =>
      updateAssoc map key
        { existing with
          area := existing.area + m.area.getD 0,
          confidence :=
            (existing.confidence * (existing.sources.length : ℚ) +
                m.confidence.getD 0) / ((existing.sources.length : ℚ) + 1),
          sources := existing.sources ++ [docName] }
    | none =>
      updateAssoc map key
        { material := name, code := m.code.getD "", area := m.area.getD 0,
          unit := m.unit, confidence := m.confidence.getD 0,
          sources := [docName] }

/-- Embeds `App.getConsolidatedSummary`: filter the roof-related results,
return `none` when there are no roof results, otherwise fold every material
of every roof result into the map and assemble the summary. -/
def getConsolidatedSummary (results : List ResultFile) :
    Option ConsolidatedSummary :=
  let roofResults := results.filter (fun r => r.isRoofRelated)
  if roofResults.length = 0 then none
  else
    let materialMap := roofResults.foldl
      (fun map r => (r.materials.getD []).foldl
        (fun map₂ m => processMaterial r.fileName map₂ m) map) []
    let consolidatedMaterials := materialMap.map (fun kv => kv.2)
    some { materials := consolidatedMaterials,
           totalArea := consolidatedMaterials.foldl (fun acc m => acc + m.area) 0,
           roofPlanCount := roofResults.length,
           totalPlanCount := results.length }

/-- All characters of the list are whitespace. -/
def allWhitespace (l : List Char) : Prop := ∀ c ∈ l, c.isWhitespace

/-- Two material names differ only by letter case and/or leading/trailing
whitespace: both consist of a whitespace prefix, a core and a whitespace
suffix, and the cores agree after case folding. -/
def caseEdgeWhitespaceVariant (a b : String) : Prop :=
  ∃ w₁ c₁ w₂ w₃ c₂ w₄ : List Char,
    a.data = w₁ ++ c₁ ++ w₂ ∧ b.data = w₃ ++ c₂ ++ w₄ ∧
    allWhitespace w₁ ∧ allWhitespace w₂ ∧ allWhitespace w₃ ∧
    allWhitespace w₄ ∧ c₁.map Char.toLower = c₂.map Char.toLower

/-- Concrete relevant document contributing material "EPDM" with area 50 and
confidence 0.8 (the consolidation example of the specification). -/
def epdmDoc1 : ResultFile :=
  { fileName := "doc1.pdf", isRoofRelated := true, documentType := "roof plan",
    language := "English", scale := "1:100",
    materials := some [{ material := some "EPDM", code := some "EP",
                         area := some 50, unit := "m²", confidence := some 0.8,
                         notes := "" }],
    summary := none, validation := none }

/-- Concrete relevant document contributing material " epdm " with area 30,
confidence 0.6 and a different code and unit than `epdmDoc1`. -/
def epdmDoc2 : ResultFile :=
  { fileName := "doc2.pdf", isRoofRelated := true, documentType := "roof plan",
    language := "English", scale := "1:100",
    materials := some [{ material := some " epdm ", code := some "XX",
                         area := some 30, unit := "ft²", confidence := some 0.6,
                         notes := "" }],
    summary := none, validation := none }

/-- Concrete relevant document whose only material entry has the empty
string as its name. -/
def emptyNameDoc : ResultFile :=
  { fileName := "d.pdf", isRoofRelated := true, documentType := "roof plan",
    language := "English", scale := "1:100",
    materials := some [{ material := some "", code := none, area := some 10,
                         unit := "m²", confidence := some 0.5, notes := "" }],
    summary := none, validation := none }

/-- Concrete relevant document whose only material entry has a missing (or
non-string) name. -/
def noneNameDoc : ResultFile :=
  { fileName := "d2.pdf", isRoofRelated := true, documentType := "roof plan",
    language := "English", scale := "1:100",
    materials := some [{ material := none, code := none, area := some 10,
                         unit := "m²", confidence := some 0.5, notes := "" }],
    summary := none, validation := none }

/-- Concrete document that is not roof related. -/
def irrelevantDoc : ResultFile :=
  { fileName := "site.pdf", isRoofRelated := false, documentType := "site plan",
    language := "English", scale := "1:500",
    materials := some [], summary := none, validation := none }

/-- Concrete roof-related analysis with a truthy total area, as returned by
the interpretation engine before validation is attached. -/
def roofAnalysis : AnalysisResult :=
  { isRoofRelated := true, documentType := "roof plan", language := "English",
    scale := "1:100", materials := some [], summary := some ⟨120, 0⟩,
    validation := none }

/-- Concrete interpretation result used by the batch-run witness. -/
def sampleAnalysis : AnalysisResult :=
  { isRoofRelated := true, documentType := "roof plan", language := "English",
    scale := "1:100", materials := some [], summary := some ⟨100, 0⟩,
    validation := none }

/-- Concrete interpretation engine that fails on document index 1 (the
second document of the batch) and succeeds elsewhere. -/
def interpFail1 : Nat → Except String AnalysisResult :=
  fun j => if j = 1 then Except.error "Gemini API error: empty response"
           else Except.ok sampleAnalysis

/-- Concrete consolidated record for the key "epdm" after the first EPDM
document has been processed. -/
def epdmExisting : ConsolidatedMaterial :=
  { material := "EPDM", code := "EP", area := 50, unit := "m²",
    confidence := 0.8, sources := ["doc1.pdf"] }

/-- Concrete later material entry merged into `epdmExisting`. -/
def epdmEntry2 : Material :=
  { material := some " epdm ", code := some "XX", area := some 30,
    unit := "ft²", confidence := some 0.6, notes := "" }

/-- A character in the ASCII uppercase range is not whitespace. -/
theorem isWhitespace_false_of_upper (c : Char) (h1 : 65 ≤ c.toNat)
    (h2 : c.toNat ≤ 90) : c.isWhitespace = false := by
  have hs : c ≠ ' ' := by rintro rfl; revert h1; decide
  have ht : c ≠ '\t' := by rintro rfl; revert h1; decide
  have hr : c ≠ '\r' := by rintro rfl; revert h1; decide
  have hn : c ≠ '\n' := by rintro rfl; revert h1; decide
  simp [Char.isWhitespace, hs, ht, hr, hn]

/-- The ASCII case fold is idempotent. -/
theorem toLower_toLower (c : Char) :
    Char.toLower (Char.toLower c) = Char.toLower c := by
  by_cases h : 65 ≤ c.toNat ∧ c.toNat ≤ 90
  · have h1 : Char.toLower c = Char.ofNat (c.toNat + 32) := by
      simp [Char.toLower, h.1, h.2]
    rw [h1]
    obtain ⟨ha, hb⟩ := h
    generalize c.toNat = n at ha hb
    interval_cases n <;> decide
  · have h1 : Char.toLower c = c := by
      simp only [Char.toLower]
      rw [if_neg]
      omega
    rw [h1, h1]

/-- Case folding preserves whether a character is whitespace. -/
theorem isWhitespace_toLower (c : Char) :
    (Char.toLower c).isWhitespace = c.isWhitespace := by
  by_cases h : 65 ≤ c.toNat ∧ c.toNat ≤ 90
  · have h1 : Char.toLower c = Char.ofNat (c.toNat + 32) := by
      simp [Char.toLower, h.1, h.2]
    rw [h1, isWhitespace_false_of_upper c h.1 h.2]
    obtain ⟨ha, hb⟩ := h
    generalize c.toNat = n at ha hb
    interval_cases n <;> decide
  · have h1 : Char.toLower c = c := by
      simp only [Char.toLower]
      rw [if_neg]
      omega
    rw [h1]

/-- Dropping whitespace from the left absorbs an all-whitespace prefix. -/
theorem dropWhile_ws_append (w l : List Char) (hw : allWhitespace w) :
    List.dropWhile Char.isWhitespace (w ++ l) =
      List.dropWhile Char.isWhitespace l := by
  induction w with
  | nil => rfl
  | cons c t ih =>
    have hc : c.isWhitespace = true := hw c (List.mem_cons_self c t)
    have ht : allWhitespace t := fun x hx => hw x (List.mem_cons_of_mem c hx)
    simp [List.dropWhile_cons, hc, ih ht]

/-- Dropping whitespace from the right absorbs an all-whitespace suffix. -/
theorem rdropWhile_ws_append (l w : List Char) (hw : allWhitespace w) :
    List.rdropWhile Char.isWhitespace (l ++ w) =
      List.rdropWhile Char.isWhitespace l := by
  have hw2 : allWhitespace w.reverse := fun c hc => hw c (List.mem_reverse.mp hc)
  simp only [List.rdropWhile, List.reverse_append]
  rw [dropWhile_ws_append _ _ hw2]

/-- Trimming absorbs an all-whitespace suffix. -/
theorem trimChars_append_right (l w : List Char) (hw : allWhitespace w) :
    trimChars (l ++ w) = trimChars l := by
  simp only [trimChars]
  rw [List.dropWhile_append]
  by_cases h : (List.dropWhile Char.isWhitespace l).isEmpty
  · rw [if_pos h]
    have hwnil : List.dropWhile Char.isWhitespace w = [] := by
      have := dropWhile_ws_append w [] hw
      simpa using this
    rw [hwnil]
    rw [List.isEmpty_iff] at h
    rw [h]
  · rw [if_neg h]
    exact rdropWhile_ws_append _ _ hw

/-- Trimming absorbs an all-whitespace prefix. -/
theorem trimChars_append_left (w l : List Char) (hw : allWhitespace w) :
    trimChars (w ++ l) = trimChars l := by
  simp only [trimChars]
  rw [dropWhile_ws_append _ _ hw]

/-- Trimming absorbs whitespace on both ends. -/
theorem trimChars_surround (w₁ l w₂ : List Char) (h₁ : allWhitespace w₁)
    (h₂ : allWhitespace w₂) : trimChars (w₁ ++ l ++ w₂) = trimChars l := by
  rw [List.append_assoc, trimChars_append_left _ _ h₁,
    trimChars_append_right _ _ h₂]

/-- Left-trimming commutes with case folding. -/
theorem dropWhile_ws_map_toLower (l : List Char) :
    List.dropWhile Char.isWhitespace (l.map Char.toLower) =
      (List.dropWhile Char.isWhitespace l).map Char.toLower := by
  have hp : (Char.isWhitespace ∘ Char.toLower) = Char.isWhitespace := by
    funext c
    simp [Function.comp, isWhitespace_toLower]
  rw [List.dropWhile_map, hp]

/-- Trimming commutes with case folding. -/
theorem trimChars_map_toLower (l : List Char) :
    trimChars (l.map Char.toLower) = (trimChars l).map Char.toLower := by
  simp only [trimChars, List.rdropWhile]
  rw [dropWhile_ws_map_toLower, ← List.map_reverse, dropWhile_ws_map_toLower,
    List.map_reverse]

/-- The first element surviving a `dropWhile` does not satisfy the
predicate. -/
theorem not_of_dropWhile_eq_cons {α : Type} (p : α → Bool) (l r : List α)
    (c : α) (h : List.dropWhile p l = c :: r) : p c = false := by
  induction l with
  | nil => simp [List.dropWhile] at h
  | cons a t ih =>
    rw [List.dropWhile_cons] at h
    by_cases hp : p a
    · rw [if_pos hp] at h
      exact ih h
    · rw [if_neg hp] at h
      cases h
      simpa using hp

/-- A fully trimmed list has no leading whitespace left to drop. -/
theorem dropWhile_trimChars (l : List Char) :
    List.dropWhile Char.isWhitespace (trimChars l) = trimChars l := by
  rcases h : trimChars l with _ | ⟨c, t⟩
  · rfl
  · have hpre : trimChars l <+: List.dropWhile Char.isWhitespace l :=
      List.rdropWhile_prefix _ _
    obtain ⟨s, hs⟩ := hpre
    rw [h] at hs
    have hc : c.isWhitespace = false :=
      not_of_dropWhile_eq_cons Char.isWhitespace l (t ++ s) c (by
        rw [← hs]; rfl)
    rw [List.dropWhile_cons, hc]
    simp

/-- Trimming is idempotent. -/
theorem trimChars_trimChars (l : List Char) :
    trimChars (trimChars l) = trimChars l := by
  calc trimChars (trimChars l)
      = List.rdropWhile Char.isWhitespace (trimChars l) := by
        rw [trimChars, dropWhile_trimChars]
    _ = trimChars l := by
        rw [trimChars, List.rdropWhile_idempotent]

/-- Looking up the key just written by `updateAssoc` yields the new value. -/
theorem findAssoc_updateAssoc_self (m : List (String × ConsolidatedMaterial))
    (k : String) (v : ConsolidatedMaterial) :
    findAssoc (updateAssoc m k v) k = some v := by
  induction m with
  | nil => simp [updateAssoc, findAssoc]
  | cons kv rest ih =>
    obtain ⟨k₁, v₁⟩ := kv
    by_cases h : k₁ = k
    · simp [updateAssoc, findAssoc, h]
    · simp [updateAssoc, findAssoc, h, ih]

/-- Writing one key leaves every other key's association unchanged. -/
theorem findAssoc_updateAssoc_ne (m : List (String × ConsolidatedMaterial))
    (k k₂ : String) (v : ConsolidatedMaterial) (h : k ≠ k₂) :
    findAssoc (updateAssoc m k₂ v) k = findAssoc m k := by
  induction m with
  | nil => simp [updateAssoc, findAssoc, Ne.symm h]
  | cons kv rest ih =>
    obtain ⟨k₁, v₁⟩ := kv
    by_cases h1 : k₁ = k₂
    · subst h1
      simp [updateAssoc, findAssoc, Ne.symm h]
    · simp [updateAssoc, findAssoc, h1, ih]

/-- The running `reduce` that computes `totalArea` is the list sum. -/
theorem foldl_add_area (l : List ConsolidatedMaterial) (init : ℚ) :
    l.foldl (fun acc m => acc + m.area) init =
      init + (l.map (fun m => m.area)).sum := by
  induction l generalizing init with
  | nil => simp
  | cons m rest ih =>
    simp only [List.foldl_cons, List.map_cons, List.sum_cons, ih]
    ring

/-- The loop of `analyzePDFs`, started at index `i` with `n` documents left,
stops at the first failing interpretation, returning exactly the records of
the documents interpreted before the failure. -/
theorem runBatchAux_stops_at_error (interpret : Nat → Except String AnalysisResult)
    (files : List String) (f : Nat → AnalysisResult) (e : String) :
    ∀ (k i n : Nat), k < n →
      (∀ j, j < k → interpret (i + j) = .ok (f (i + j))) →
      interpret (i + k) = .error e →
      runBatchAux interpret files i n =
        ((List.range k).map
          (fun j => mkResultFile (files.getD (i + j) "") (f (i + j))), some e) := by
  intro k
  induction k with
  | zero =>
    intro i n hk _ herr
    match n, hk with
    | n + 1, _ =>
      simp only [Nat.add_zero] at herr
      simp [runBatchAux, herr]
  | succ k ih =>
    intro i n hk hok herr
    match n, hk with
    | n + 1, hk =>
      have h0 : interpret i = .ok (f i) := by
        have := hok 0 (Nat.succ_pos k); simpa using this
      have hrec := ih (i + 1) n (by omega)
        (fun j hj => by
          have := hok (j + 1) (by omega)
          simpa [Nat.add_assoc, Nat.add_comm, Nat.add_left_comm] using this)
        (by simpa [Nat.add_assoc, Nat.add_comm, Nat.add_left_comm] using herr)
      simp only [runBatchAux, h0, hrec, List.range_succ_eq_map, List.map_cons,
        List.map_map, Prod.mk.injEq, List.cons.injEq, and_true, true_and]
      refine ⟨by simp, ?_⟩
      apply List.map_congr_left
      intro j _
      simp only [Function.comp_apply, Nat.succ_eq_add_one]
      have hj : i + 1 + j = i + (j + 1) := by omega
      rw [hj]

/-- Claim C1: when the secondary estimate is available with a positive area,
`validateAreaCalculation` reports `percentDelta = 100 * |primary - secondary|
/ secondary` and follows the decision ladder: within tolerance use the
primary, else a simple-rectangle detection wins, else a delta above 20
percent picks the secondary, else manual review; in particular
`reconcile(117, {area 100, not simple}, 15)` gives `percentDelta = 17` and
manual review. -/
theorem reconcile_follows_decision_ladder (aiArea a tolerancePercent : ℚ)
    (pr : PythonAreaResult) (hs : pr.success = true)
    (ha : pr.total_area_m2 = some a) (hpos : 0 < a) :
    (validateAreaCalculation aiArea pr tolerancePercent).differencePercent =
      |aiArea - a| / a * 100 ∧
    (validateAreaCalculation aiArea pr tolerancePercent).recommendation =
      (if |aiArea - a| / a * 100 ≤ tolerancePercent then Recommendation.use_ai
       else if pr.is_simple_rectangle then Recommendation.use_python
       else if 20 < |aiArea - a| / a * 100 then Recommendation.use_python
       else Recommendation.manual_review) ∧
    (validateAreaCalculation 117 ⟨true, false, some 100⟩ 15).differencePercent = 17 ∧
    (validateAreaCalculation 117 ⟨true, false, some 100⟩ 15).recommendation =
      Recommendation.manual_review := by
  have hne : a ≠ 0 := ne_of_gt hpos
  refine ⟨?_, ?_, ?_, ?_⟩
  · simp only [validateAreaCalculation, qTruthy, hs, ha]
    norm_num [hne]
    split_ifs <;> rfl
  · simp only [validateAreaCalculation, qTruthy, hs, ha]
    norm_num [hne]
    cases hsr : pr.is_simple_rectangle <;> split_ifs <;> simp_all
  · norm_num [validateAreaCalculation, qTruthy]
  · norm_num [validateAreaCalculation, qTruthy]

/-- Witness for C1: instantiating the ladder at
`reconcile(130, {area 100, not simple}, 15)` yields the use-secondary
recommendation. -/
theorem reconcile_ladder_witness :
    (validateAreaCalculation 130 ⟨true, false, some 100⟩ 15).recommendation =
      Recommendation.use_python := by
  have h := reconcile_follows_decision_ladder 130 100 15 ⟨true, false, some 100⟩
    rfl rfl (by norm_num)
  rw [h.2.1]
  norm_num

/-- Claim C2: when consolidation sees a canonical key again, the stored
record's area grows by the entry's area (default 0), its confidence becomes
the running mean weighted by the source-document count before appending, and
the document name is appended; the two-document EPDM example produces one
consolidated material with area 80, confidence 0.7 and two sources. -/
theorem consolidation_merge_formula :
    (∀ (docName : String) (map : List (String × ConsolidatedMaterial))
        (m : Material) (name : String) (ex : ConsolidatedMaterial),
        m.material = some name →
        findAssoc map (canonicalize name) = some ex →
        findAssoc (processMaterial docName map m) (canonicalize name) =
          some { material := ex.material, code := ex.code,
                 area := ex.area + m.area.getD 0, unit := ex.unit,
                 confidence := (ex.confidence * (ex.sources.length : ℚ) +
                   m.confidence.getD 0) / ((ex.sources.length : ℚ) + 1),
                 sources := ex.sources ++ [docName] }) ∧
    getConsolidatedSummary [epdmDoc1, epdmDoc2] =
      some { materials := [{ material := "EPDM", code := "EP", area := 80,
                             unit := "m²", confidence := 0.7,
                             sources := ["doc1.pdf", "doc2.pdf"] }],
             totalArea := 80, roofPlanCount := 2, totalPlanCount := 2 } := by
  constructor
  · intro docName map m name ex hname hfound
    simp [processMaterial, hname, hfound, findAssoc_updateAssoc_self]
  · have h1 : canonicalize "EPDM" = "epdm" := by decide
    have h2 : canonicalize " epdm " = "epdm" := by decide
    simp only [getConsolidatedSummary, processMaterial, findAssoc, updateAssoc,
      epdmDoc1, epdmDoc2, h1, h2, List.filter, List.foldl, Option.getD]
    norm_num

/-- Witness for C2: merging the second EPDM entry into the stored record for
key "epdm" updates area, confidence and sources exactly as the formula
states. -/
theorem consolidation_merge_witness :
    findAssoc (processMaterial "doc2.pdf" [("epdm", epdmExisting)] epdmEntry2)
        (canonicalize " epdm ") =
      some { material := "EPDM", code := "EP", area := 80, unit := "m²",
             confidence := 0.7, sources := ["doc1.pdf", "doc2.pdf"] } := by
  have hkey : canonicalize " epdm " = "epdm" := by decide
  have h := consolidation_merge_formula.1 "doc2.pdf" [("epdm", epdmExisting)]
    epdmEntry2 " epdm " epdmExisting rfl (by rw [hkey]; simp [findAssoc])
  rw [h]
  norm_num [epdmExisting, epdmEntry2]

/-- Claim C3: a batch run whose interpretation fails at document index `k`
terminates with exactly the `k` records of documents `0..k-1` preserved next
to the error, and no partial record for the failing document. -/
theorem batch_preserves_completed_results (files : List String)
    (interpret : Nat → Except String AnalysisResult) (f : Nat → AnalysisResult)
    (e : String) (k : Nat) (hk : k < files.length)
    (hok : ∀ j, j < k → interpret j = .ok (f j))
    (herr : interpret k = .error e) :
    analyzePDFs files interpret =
      ((List.range k).map (fun j => mkResultFile (files.getD j "") (f j)),
        some e) ∧
    (analyzePDFs files interpret).1.length = k := by
  have h := runBatchAux_stops_at_error interpret files f e k 0 files.length hk
    (by simpa using hok) (by simpa using herr)
  rw [analyzePDFs, h]
  simp

/-- Witness for C3: a batch of 3 documents failing at the second document
returns exactly one completed record, for document index 0, plus the
error. -/
theorem batch_failure_witness :
    analyzePDFs ["a.pdf", "b.pdf", "c.pdf"] interpFail1 =
      ([mkResultFile "a.pdf" sampleAnalysis],
        some "Gemini API error: empty response") ∧
    (analyzePDFs ["a.pdf", "b.pdf", "c.pdf"] interpFail1).1.length = 1 := by
  have h := batch_preserves_completed_results ["a.pdf", "b.pdf", "c.pdf"]
    interpFail1 (fun _ => sampleAnalysis) "Gemini API error: empty response" 1
    (by norm_num)
    (fun j hj => by interval_cases j; rfl)
    rfl
  refine ⟨?_, h.2⟩
  rw [h.1]
  rfl

/-- Counterexample for C4: an entry whose name is the empty string is NOT
dropped — consolidating a single relevant document containing only an
empty-string-named entry yields one consolidated material (under the empty
canonical key) with total area 10, not an empty summary. -/
theorem empty_name_counterexample :
    getConsolidatedSummary [emptyNameDoc] =
      some { materials := [{ material := "", code := "", area := 10,
                             unit := "m²", confidence := 0.5,
                             sources := ["d.pdf"] }],
             totalArea := 10, roofPlanCount := 1, totalPlanCount := 1 } ∧
    (getConsolidatedSummary [emptyNameDoc]).map (fun s => s.materials.length) ≠
      some 0 := by
  have h0 : canonicalize "" = "" := rfl
  constructor
  · simp only [getConsolidatedSummary, processMaterial, findAssoc, updateAssoc,
      emptyNameDoc, h0, List.filter, List.foldl, Option.getD]
    norm_num
  · simp only [getConsolidatedSummary, processMaterial, findAssoc, updateAssoc,
      emptyNameDoc, h0, List.filter, List.foldl, Option.getD]
    norm_num

/-- Claim C4 (amended): entries whose name is missing or not a string are
silently skipped and never make consolidation fail, but an entry whose name
is the empty string is NOT dropped — it is consolidated under the empty
canonical key like any other string-named entry. -/
theorem non_string_name_skipped :
    (∀ (docName : String) (map : List (String × ConsolidatedMaterial))
        (m : Material), m.material = none →
        processMaterial docName map m = map) ∧
    getConsolidatedSummary [noneNameDoc] =
      some { materials := [], totalArea := 0, roofPlanCount := 1,
             totalPlanCount := 1 } ∧
    getConsolidatedSummary [emptyNameDoc] =
      some { materials := [{ material := "", code := "", area := 10,
                             unit := "m²", confidence := 0.5,
                             sources := ["d.pdf"] }],
             totalArea := 10, roofPlanCount := 1, totalPlanCount := 1 } := by
  refine ⟨?_, ?_, ?_⟩
  · intro docName map m hm
    simp [processMaterial, hm]
  · simp only [getConsolidatedSummary, processMaterial, noneNameDoc,
      List.filter, List.foldl, Option.getD]
    norm_num
  · have h0 : canonicalize "" = "" := rfl
    simp only [getConsolidatedSummary, processMaterial, findAssoc, updateAssoc,
      emptyNameDoc, h0, List.filter, List.foldl, Option.getD]
    norm_num

/-- Witness for C4: skipping a concrete entry with a missing name leaves a
concrete map unchanged. -/
theorem non_string_name_witness :
    processMaterial "d2.pdf" [("epdm", epdmExisting)]
        { material := none, code := none, area := some 10, unit := "m²",
          confidence := some 0.5, notes := "" } =
      [("epdm", epdmExisting)] :=
  non_string_name_skipped.1 "d2.pdf" [("epdm", epdmExisting)] _ rfl

/-- Counterexample for C5: with a present secondary whose area is 0 and a
nonzero primary of 50, the reconciler returns `percentDelta = 0` (and the
validated, use-primary verdict), not the claimed `percentDelta = 100`. -/
theorem zero_secondary_counterexample :
    validateAreaCalculation 50 ⟨true, false, some 0⟩ 15 =
      { isValid := true, pythonArea := 0, difference := 0,
        differencePercent := 0, recommendation := .use_ai } ∧
    (validateAreaCalculation 50 ⟨true, false, some 0⟩ 15).differencePercent ≠
      100 := by
  norm_num [validateAreaCalculation, qTruthy]

/-- Claim C5 (amended): a present secondary with area 0 fails the JS
truthiness availability check and is handled by the unavailable branch:
for every primary and tolerance the result is the validated use-primary
record with `percentDelta = 0` — even when the primary is nonzero. -/
theorem zero_secondary_is_unavailable (aiArea tolerancePercent : ℚ)
    (simple : Bool) :
    validateAreaCalculation aiArea ⟨true, simple, some 0⟩ tolerancePercent =
      { isValid := true, pythonArea := 0, difference := 0,
        differencePercent := 0, recommendation := .use_ai } := by
  simp [validateAreaCalculation, qTruthy]

/-- Counterexample for C6: a negative secondary area of -50 is not treated
as an absent secondary — it flows into the delta and percent-delta
computation (giving `pythonArea = -50`, `difference = 150`,
`percentDelta = -300`); and a negative primary of -10 is not clamped to 0 —
the difference against a secondary of 100 is 110, not 100. -/
theorem negative_area_counterexample :
    validateAreaCalculation 100 ⟨true, false, some (-50)⟩ 15 =
      { isValid := true, pythonArea := -50, difference := 150,
        differencePercent := -300, recommendation := .use_ai } ∧
    validateAreaCalculation (-10) ⟨true, false, some 100⟩ 15 =
      { isValid := false, pythonArea := 100, difference := 110,
        differencePercent := 110, recommendation := .use_python } := by
  constructor <;> norm_num [validateAreaCalculation, qTruthy]

/-- Claim C6 (amended): negative areas receive no special handling and no
error is raised: a negative secondary area passes the availability check and
is used directly in the arithmetic, producing a nonpositive percent delta
that always validates (use-primary) under a nonnegative tolerance; a
negative primary is used unclamped, so its difference against a positive
secondary `b` is `b - p`. -/
theorem negative_areas_flow_through (aiArea a tolerancePercent : ℚ)
    (simple : Bool) (hneg : a < 0) (htol : 0 ≤ tolerancePercent) :
    validateAreaCalculation aiArea ⟨true, simple, some a⟩ tolerancePercent =
      { isValid := true, pythonArea := a, difference := |aiArea - a|,
        differencePercent := |aiArea - a| / a * 100,
        recommendation := .use_ai } ∧
    ∀ (p b : ℚ), p < 0 → 0 < b →
      (validateAreaCalculation p ⟨true, simple, some b⟩
          tolerancePercent).difference = b - p := by
  constructor
  · have hne : a ≠ 0 := ne_of_lt hneg
    have hdp : |aiArea - a| / a * 100 ≤ tolerancePercent := by
      have h1 : |aiArea - a| / a ≤ 0 :=
        div_nonpos_of_nonneg_of_nonpos (abs_nonneg _) (le_of_lt hneg)
      nlinarith
    simp [validateAreaCalculation, qTruthy, hne, hdp]
  · intro p b hp hb
    have hne : b ≠ 0 := ne_of_gt hb
    have habs : |p - b| = b - p := by
      rw [abs_of_nonpos (by linarith)]; ring
    simp only [validateAreaCalculation, qTruthy]
    norm_num [hne]
    split_ifs <;> simp [habs]

/-- Witness for C6: the unclamped negative primary -10 against secondary 100
yields difference 110. -/
theorem negative_areas_witness :
    (validateAreaCalculation (-10) ⟨true, false, some 100⟩ 15).difference =
      110 := by
  have h := negative_areas_flow_through 100 (-50) 15 false (by norm_num)
    (by norm_num)
  have h2 := h.2 (-10) 100 (by norm_num) (by norm_num)
  rw [h2]
  norm_num

/-- Counterexample for C7: the validation record the orchestrator attaches
to a roof-related analysis has `pythonUsed = false` but carries no
recommendation at all, so its recommendation is not the claimed
use-primary. -/
theorem orchestrator_validation_counterexample :
    ∃ v : ValidationInfo,
      (attachValidation roofAnalysis (Except.ok false)).validation = some v ∧
      v.pythonUsed = false ∧ ¬ v.recommendation = some Recommendation.use_ai := by
  refine ⟨{ pythonUsed := false, pythonArea := none, aiArea := none,
            difference := none, differencePercent := none,
            recommendation := none,
            validationMessage :=
              some "Python validation unavailable - install Python dependencies to enable" },
          ?_, rfl, by simp⟩
  norm_num [attachValidation, roofAnalysis, qTruthy]

/-- Claim C7 (amended): the reconciler's unavailable branch always
recommends use-primary, but validation records attached by the orchestrator
have `pythonUsed = false` with the recommendation field left unset, so the
stated invariant holds for the reconciler yet fails for orchestrator-attached
records. -/
theorem unavailable_branch_recommendation (aiArea tolerancePercent : ℚ)
    (pr : PythonAreaResult)
    (hun : pr.success = false ∨ pr.total_area_m2 = none ∨
      pr.total_area_m2 = some 0) :
    (validateAreaCalculation aiArea pr tolerancePercent).recommendation =
      Recommendation.use_ai ∧
    ∀ (a : AnalysisResult) (pc : Except Unit Bool) (v : ValidationInfo),
      a.validation = none → (attachValidation a pc).validation = some v →
      v.pythonUsed = false ∧ v.recommendation = none := by
  constructor
  · rcases hun with h | h | h <;> simp [validateAreaCalculation, qTruthy, h]
  · intro a pc v hnone hv
    by_cases hc :
        (a.isRoofRelated && qTruthy (a.summary.map (fun s => s.totalArea))) = true
    · rcases pc with e | b
      · simp only [attachValidation, hc, if_true] at hv
        cases hv
        exact ⟨rfl, rfl⟩
      · cases b <;>
        · simp only [attachValidation, hc, if_true] at hv
          cases hv
          exact ⟨rfl, rfl⟩
    · simp [attachValidation, hc] at hv
      rw [hnone] at hv
      cases hv

/-- Witness for C7: a concrete unavailable reconciliation (no secondary
result at all) recommends use-primary. -/
theorem unavailable_branch_witness :
    (validateAreaCalculation 100 ⟨false, false, none⟩ 15).recommendation =
      Recommendation.use_ai :=
  (unavailable_branch_recommendation 100 15 ⟨false, false, none⟩ (Or.inl rfl)).1

/-- Claim C8: consolidation returns `none` exactly when no roof-related
document exists; otherwise the summary's total area is the sum of the
consolidated materials' areas, its roof-plan count is the number of
roof-related documents and its total count is the length of the result
list. -/
theorem consolidate_none_iff_totals (results : List ResultFile) :
    (getConsolidatedSummary results = none ↔
      results.filter (fun r => r.isRoofRelated) = []) ∧
    ∀ s, getConsolidatedSummary results = some s →
      s.totalArea = (s.materials.map (fun m => m.area)).sum ∧
      s.roofPlanCount = (results.filter (fun r => r.isRoofRelated)).length ∧
      s.totalPlanCount = results.length := by
  by_cases h : (results.filter (fun r => r.isRoofRelated)).length = 0
  · have hnil := List.length_eq_zero.mp h
    constructor
    · simp [getConsolidatedSummary, h, hnil]
    · intro s hs
      simp [getConsolidatedSummary, h] at hs
  · constructor
    · constructor
      · intro hnone
        simp [getConsolidatedSummary, h] at hnone
      · intro hnil
        exact absurd (by rw [hnil]; rfl) h
    · intro s hs
      simp only [getConsolidatedSummary, h, if_false] at hs
      cases hs
      refine ⟨?_, rfl, rfl⟩
      simp [foldl_add_area]

/-- Witness for C8: the empty batch and a batch with only an irrelevant
document both consolidate to `none`, and the two-document EPDM batch gets
roof-plan count 2 and total count 2. -/
theorem consolidate_none_witness :
    getConsolidatedSummary [] = none ∧
    getConsolidatedSummary [irrelevantDoc] = none ∧
    ∀ s, getConsolidatedSummary [epdmDoc1, epdmDoc2] = some s →
      s.roofPlanCount = 2 ∧ s.totalPlanCount = 2 := by
  refine ⟨?_, ?_, ?_⟩
  · exact (consolidate_none_iff_totals []).1.mpr rfl
  · exact (consolidate_none_iff_totals [irrelevantDoc]).1.mpr
      (by simp [irrelevantDoc])
  · intro s hs
    have h := (consolidate_none_iff_totals [epdmDoc1, epdmDoc2]).2 s hs
    refine ⟨?_, h.2.2⟩
    rw [h.2.1]
    simp [epdmDoc1, epdmDoc2]

/-- Claim C9: material names that differ only by letter case and/or
leading/trailing whitespace canonicalize to equal keys, and `canonicalize`
is idempotent. -/
theorem canonicalize_respects_case_ws :
    (∀ a b : String, caseEdgeWhitespaceVariant a b →
      canonicalize a = canonicalize b) ∧
    (∀ x : String, canonicalize (canonicalize x) = canonicalize x) := by
  constructor
  · intro a b h
    obtain ⟨w₁, c₁, w₂, w₃, c₂, w₄, ha, hb, hw₁, hw₂, hw₃, hw₄, hc⟩ := h
    have lw : ∀ w : List Char, allWhitespace w →
        allWhitespace (w.map Char.toLower) := by
      intro w hw c hcmem
      obtain ⟨d, hd, rfl⟩ := List.mem_map.mp hcmem
      rw [isWhitespace_toLower]
      exact hw d hd
    simp only [canonicalize, ha, hb, List.map_append]
    rw [trimChars_surround _ _ _ (lw w₁ hw₁) (lw w₂ hw₂),
      trimChars_surround _ _ _ (lw w₃ hw₃) (lw w₄ hw₄), hc]
  · intro x
    have hll : Char.toLower ∘ Char.toLower = Char.toLower := by
      funext c
      simp [Function.comp, toLower_toLower]
    have key : ∀ L : List Char,
        trimChars (List.map Char.toLower (trimChars (List.map Char.toLower L))) =
          trimChars (List.map Char.toLower L) := by
      intro L
      rw [← trimChars_map_toLower, List.map_map, hll, trimChars_trimChars]
    exact congrArg String.mk (key x.data)

/-- Witness for C9: "EPDM" and " epdm " canonicalize to the same key, and
canonicalizing a concrete already-canonicalized name changes nothing. -/
theorem canonicalize_witness :
    canonicalize "EPDM" = canonicalize " epdm " ∧
    canonicalize (canonicalize " EPDM Roofing ") =
      canonicalize " EPDM Roofing " := by
  constructor
  · apply canonicalize_respects_case_ws.1
    refine ⟨[], "EPDM".data, [], [' '], "epdm".data, [' '], rfl, rfl,
      ?_, ?_, ?_, ?_, ?_⟩
    · intro c hc
      cases hc
    · intro c hc
      cases hc
    · intro c hc
      simp only [List.mem_singleton] at hc
      subst hc
      decide
    · intro c hc
      simp only [List.mem_singleton] at hc
      subst hc
      decide
    · decide
  · exact canonicalize_respects_case_ws.2 " EPDM Roofing "

/-- Claim C10: merging a later entry into an existing consolidated record
changes only area, confidence and sources — the displayed name, code and
unit stay those of the first-seen entry — and leaves every other key's
record untouched; end to end, the EPDM pair keeps the first document's
casing "EPDM", code "EP" and unit "m²" even though the second entry carries
"XX" and "ft²". -/
theorem merge_preserves_identity_fields :
    (∀ (docName : String) (map : List (String × ConsolidatedMaterial))
        (m : Material) (name : String) (ex : ConsolidatedMaterial),
        m.material = some name →
        findAssoc map (canonicalize name) = some ex →
        ∃ ex₂, findAssoc (processMaterial docName map m) (canonicalize name) =
            some ex₂ ∧
          ex₂.material = ex.material ∧ ex₂.code = ex.code ∧
          ex₂.unit = ex.unit) ∧
    (∀ (docName : String) (map : List (String × ConsolidatedMaterial))
        (m : Material) (k : String),
        (∀ name, m.material = some name → k ≠ canonicalize name) →
        findAssoc (processMaterial docName map m) k = findAssoc map k) ∧
    (getConsolidatedSummary [epdmDoc1, epdmDoc2]).map
        (fun s => s.materials.map (fun c => (c.material, c.code, c.unit))) =
      some [("EPDM", "EP", "m²")] := by
  refine ⟨?_, ?_, ?_⟩
  · intro docName map m name ex hname hfound
    refine ⟨{ material := ex.material, code := ex.code,
              area := ex.area + m.area.getD 0, unit := ex.unit,
              confidence := (ex.confidence * (ex.sources.length : ℚ) +
                m.confidence.getD 0) / ((ex.sources.length : ℚ) + 1),
              sources := ex.sources ++ [docName] }, ?_, rfl, rfl, rfl⟩
    simp [processMaterial, hname, hfound, findAssoc_updateAssoc_self]
  · intro docName map m k hk
    rcases hm : m.material with _ | name
    · simp [processMaterial, hm]
    · have hne : k ≠ canonicalize name := hk name hm
      rcases hfound : findAssoc map (canonicalize name) with _ | ex <;>
        simp [processMaterial, hm, hfound, findAssoc_updateAssoc_ne _ _ _ _ hne]
  · have h1 : canonicalize "EPDM" = "epdm" := by decide
    have h2 : canonicalize " epdm " = "epdm" := by decide
    simp only [getConsolidatedSummary, processMaterial, findAssoc, updateAssoc,
      epdmDoc1, epdmDoc2, h1, h2, List.filter, List.foldl, Option.getD]
    norm_num

/-- Witness for C10: merging the concrete second EPDM entry preserves the
first-seen name, code and unit, and leaves the unrelated key "tiles"
unchanged. -/
theorem merge_preserves_identity_witness :
    (∃ ex₂, findAssoc (processMaterial "doc2.pdf" [("epdm", epdmExisting)]
          epdmEntry2) (canonicalize " epdm ") = some ex₂ ∧
        ex₂.material = "EPDM" ∧ ex₂.code = "EP" ∧ ex₂.unit = "m²") ∧
    findAssoc (processMaterial "doc2.pdf" [("epdm", epdmExisting)] epdmEntry2)
        "tiles" =
      findAssoc [("epdm", epdmExisting)] "tiles" := by
  constructor
  · have hkey : canonicalize " epdm " = "epdm" := by decide
    obtain ⟨ex₂, hfind, hm, hc, hu⟩ :=
      merge_preserves_identity_fields.1 "doc2.pdf" [("epdm", epdmExisting)]
        epdmEntry2 " epdm " epdmExisting rfl (by rw [hkey]; simp [findAssoc])
    exact ⟨ex₂, hfind, by rw [hm]; rfl, by rw [hc]; rfl, by rw [hu]; rfl⟩
  · apply merge_preserves_identity_fields.2.1
    intro name hname
    cases hname
    decide
